import Mathlib

/-!
Verification of the single-diode solar-cell solver in `solarcell.py`.

The script's core is `solar_cell_current`: a Newton-Raphson solve of the
implicit single-diode equation
  J = Jsc - J0*(exp((V + J*Rs)/(n*Vt)) - 1) - (V + J*Rs)/Rsh
followed by a sweep driver building `V_range`, `J_range` and `P_range`.
Machine floats are modelled by real numbers; `np.exp` by `Real.exp`.
-/

namespace SolarCell

/-- Open-circuit voltage (V), module constant `Voc` of the script. -/
def Voc : ℝ := 1.008312

/-- Short-circuit current density (mA/cm^2), module constant `Jsc`. -/
def Jsc : ℝ := 30.52638788

/-- Thermal voltage at 300K (V), module constant `Vt`. -/
def Vt : ℝ := 0.02585

/-- Diode ideality factor, module constant `n`. -/
def n : ℝ := 1.2

/-- Reverse saturation current (mA/cm^2), module constant `J0`. -/
def J0 : ℝ := 1e-12

/-- Series resistance (Ohm cm^2), module constant `Rs`. -/
def Rs : ℝ := 0.001

/-- Shunt resistance (Ohm cm^2), module constant `Rsh`. -/
def Rsh : ℝ := 10000

/-- The Newton residual `f` computed in the loop body of `solar_cell_current`:
`f = J_guess - Jsc + J0*(np.exp((V + J_guess*Rs)/(n*Vt)) - 1) + (V + J_guess*Rs)/Rsh`. -/
noncomputable def f (V Jsc J0 n Rs Rsh J_guess : ℝ) : ℝ :=
  J_guess - Jsc + J0 * (Real.exp ((V + J_guess * Rs) / (n * Vt)) - 1) +
    (V + J_guess * Rs) / Rsh

/-- The derivative `df` computed in the loop body of `solar_cell_current`:
`df = 1 + (J0*Rs/(n*Vt))*np.exp((V + J_guess*Rs)/(n*Vt)) + Rs/Rsh`. -/
noncomputable def df (V Jsc J0 n Rs Rsh J_guess : ℝ) : ℝ :=
  1 + (J0 * Rs / (n * Vt)) * Real.exp ((V + J_guess * Rs) / (n * Vt)) + Rs / Rsh

/-- The Newton update `J_new = J_guess - f/df` of the loop body. -/
noncomputable def J_new (V Jsc J0 n Rs Rsh J_guess : ℝ) : ℝ :=
  J_guess - f V Jsc J0 n Rs Rsh J_guess / df V Jsc J0 n Rs Rsh J_guess

/-- The `for _ in range(100)` loop of `solar_cell_current`, by remaining
iterations: with `fuel + 1` iterations left the body computes `J_new`; if this
was the last allowed iteration the loop ends and the function returns `J_new`;
otherwise, if `abs(J_new - J_guess) < 1e-10` the loop breaks returning `J_new`,
else it continues from `J_new`.  (`fuel = 0` is never reached from the call
with fuel 100: the loop always runs at least one iteration.) -/
noncomputable def newtonGo (V Jsc J0 n Rs Rsh : ℝ) : ℕ → ℝ → ℝ
  | 0, J_guess => J_guess
  | fuel + 1, J_guess =>
    if fuel = 0 then J_new V Jsc J0 n Rs Rsh J_guess
    else if |J_new V Jsc J0 n Rs Rsh J_guess - J_guess| < 1e-10 then
      J_new V Jsc J0 n Rs Rsh J_guess
    else newtonGo V Jsc J0 n Rs Rsh fuel (J_new V Jsc J0 n Rs Rsh J_guess)

/-- `solar_cell_current(V, Jsc, J0, n, Rs, Rsh)`: Newton-Raphson with initial
guess `J_guess = Jsc` and at most 100 iterations. -/
noncomputable def solar_cell_current (V Jsc J0 n Rs Rsh : ℝ) : ℝ :=
  newtonGo V Jsc J0 n Rs Rsh 100 Jsc

/-- The sequence of Newton iterates the loop walks through: `newtonIter k` is
the value of `J_guess` entering iteration `k` (equivalently the k-th Newton
update), starting from the initial guess `Jsc`. -/
noncomputable def newtonIter (V Jsc J0 n Rs Rsh : ℝ) : ℕ → ℝ
  | 0 => Jsc
  | k + 1 => J_new V Jsc J0 n Rs Rsh (newtonIter V Jsc J0 n Rs Rsh k)

/-- Unfolding equation for one pass of the loop. -/
lemma newtonGo_succ (V Jsc J0 n Rs Rsh : ℝ) (fuel : ℕ) (Jg : ℝ) :
    newtonGo V Jsc J0 n Rs Rsh (fuel + 1) Jg =
      if fuel = 0 then J_new V Jsc J0 n Rs Rsh Jg
      else if |J_new V Jsc J0 n Rs Rsh Jg - Jg| < 1e-10 then J_new V Jsc J0 n Rs Rsh Jg
      else newtonGo V Jsc J0 n Rs Rsh fuel (J_new V Jsc J0 n Rs Rsh Jg) := rfl

lemma newtonIter_zero (V Jsc J0 n Rs Rsh : ℝ) :
    newtonIter V Jsc J0 n Rs Rsh 0 = Jsc := rfl

lemma newtonIter_succ (V Jsc J0 n Rs Rsh : ℝ) (k : ℕ) :
    newtonIter V Jsc J0 n Rs Rsh (k + 1) =
      J_new V Jsc J0 n Rs Rsh (newtonIter V Jsc J0 n Rs Rsh k) := rfl

/-- Characterization of the loop run from iterate `m` with `fuel + 1`
iterations left: either it breaks at the first index `k` in range whose Newton
step is below the tolerance, returning iterate `k + 1`, or no step checked
before the last iteration is below the tolerance and it returns iterate
`m + (fuel + 1)`. -/
lemma newtonGo_iter_spec (V Jsc J0 n Rs Rsh : ℝ) :
    ∀ fuel m : ℕ,
      (∃ k, m ≤ k ∧ k < m + (fuel + 1) ∧
        |newtonIter V Jsc J0 n Rs Rsh (k + 1) - newtonIter V Jsc J0 n Rs Rsh k| < 1e-10 ∧
        (∀ j, m ≤ j → j < k →
          ¬ |newtonIter V Jsc J0 n Rs Rsh (j + 1) - newtonIter V Jsc J0 n Rs Rsh j| < 1e-10) ∧
        newtonGo V Jsc J0 n Rs Rsh (fuel + 1) (newtonIter V Jsc J0 n Rs Rsh m) =
          newtonIter V Jsc J0 n Rs Rsh (k + 1)) ∨
      ((∀ j, m ≤ j → j + 1 < m + (fuel + 1) →
          ¬ |newtonIter V Jsc J0 n Rs Rsh (j + 1) - newtonIter V Jsc J0 n Rs Rsh j| < 1e-10) ∧
        newtonGo V Jsc J0 n Rs Rsh (fuel + 1) (newtonIter V Jsc J0 n Rs Rsh m) =
          newtonIter V Jsc J0 n Rs Rsh (m + (fuel + 1))) := by
  intro fuel
  induction fuel with
  | zero =>
    intro m
    right
    refine ⟨fun j hj1 hj2 => absurd hj2 (by omega), ?_⟩
    rw [newtonGo_succ, if_pos rfl]
    exact (newtonIter_succ V Jsc J0 n Rs Rsh m).symm
  | succ fl ih =>
    intro m
    rw [newtonGo_succ, if_neg (Nat.succ_ne_zero fl),
      ← newtonIter_succ V Jsc J0 n Rs Rsh m]
    by_cases hsm :
      |newtonIter V Jsc J0 n Rs Rsh (m + 1) - newtonIter V Jsc J0 n Rs Rsh m| < 1e-10
    · left
      exact ⟨m, le_rfl, by omega, hsm,
        fun j hj1 hj2 => absurd (hj1.trans_lt hj2) (lt_irrefl m), by rw [if_pos hsm]⟩
    · rw [if_neg hsm]
      rcases ih (m + 1) with ⟨k, hk1, hk2, hk3, hk4, hk5⟩ | ⟨h1, h2⟩
      · left
        refine ⟨k, by omega, by omega, hk3, ?_, hk5⟩
        intro j hj1 hj2
        rcases Nat.eq_or_lt_of_le hj1 with hj | hj
        · rw [← hj]; exact hsm
        · exact hk4 j hj hj2
      · right
        constructor
        · intro j hj1 hj2
          rcases Nat.eq_or_lt_of_le hj1 with hj | hj
          · rw [← hj]; exact hsm
          · exact h1 j hj (by omega)
        · rw [h2]
          congr 1
          omega

/-- The solver's result is the iterate at the stopping index: the first index
whose Newton step is below the tolerance when one exists before the cap, and
the cap index 100 otherwise. -/
lemma solar_cell_current_stops (V Jsc J0 n Rs Rsh : ℝ) :
    ∃ K, 1 ≤ K ∧ K ≤ 100 ∧
      solar_cell_current V Jsc J0 n Rs Rsh = newtonIter V Jsc J0 n Rs Rsh K ∧
      (∀ j, j + 1 < K →
        ¬ |newtonIter V Jsc J0 n Rs Rsh (j + 1) - newtonIter V Jsc J0 n Rs Rsh j| < 1e-10) ∧
      (K < 100 →
        |newtonIter V Jsc J0 n Rs Rsh K - newtonIter V Jsc J0 n Rs Rsh (K - 1)| < 1e-10) := by
  have hcall : solar_cell_current V Jsc J0 n Rs Rsh =
      newtonGo V Jsc J0 n Rs Rsh (99 + 1) (newtonIter V Jsc J0 n Rs Rsh 0) := rfl
  rcases newtonGo_iter_spec V Jsc J0 n Rs Rsh 99 0 with ⟨k, _, hk2, hk3, hk4, hk5⟩ | ⟨h1, h2⟩
  · refine ⟨k + 1, by omega, by omega, by rw [hcall, hk5], ?_, ?_⟩
    · intro j hj
      exact hk4 j (Nat.zero_le j) (by omega)
    · intro _
      have hk : k + 1 - 1 = k := by omega
      rw [hk]
      exact hk3
  · refine ⟨100, by omega, le_rfl, ?_, ?_, fun h => absurd h (by omega)⟩
    · rw [hcall, h2]
    · intro j hj
      exact h1 j (Nat.zero_le j) (by omega)

/-- C1: the solver computes the current density by Newton-Raphson exactly as
specified: the iterate sequence starts at the initial guess `Jsc`, each step
applies the update `J(k+1) = J(k) - f(J(k)) / f'(J(k))` with the specified
residual and derivative formulas, and the solver's result is one of the first
100 iterates — for every voltage `V` and every parameter set. -/
theorem newton_update_as_specified (V Jsc J0 n Rs Rsh : ℝ) :
    newtonIter V Jsc J0 n Rs Rsh 0 = Jsc ∧
    (∀ k, newtonIter V Jsc J0 n Rs Rsh (k + 1) =
      newtonIter V Jsc J0 n Rs Rsh k -
        (newtonIter V Jsc J0 n Rs Rsh k - Jsc +
          J0 * (Real.exp ((V + newtonIter V Jsc J0 n Rs Rsh k * Rs) / (n * Vt)) - 1) +
          (V + newtonIter V Jsc J0 n Rs Rsh k * Rs) / Rsh) /
        (1 + (J0 * Rs / (n * Vt)) *
            Real.exp ((V + newtonIter V Jsc J0 n Rs Rsh k * Rs) / (n * Vt)) +
          Rs / Rsh)) ∧
    (∃ K, 1 ≤ K ∧ K ≤ 100 ∧
      solar_cell_current V Jsc J0 n Rs Rsh = newtonIter V Jsc J0 n Rs Rsh K) := by
  refine ⟨rfl, fun k => rfl, ?_⟩
  obtain ⟨K, h1, h2, h3, -, -⟩ := solar_cell_current_stops V Jsc J0 n Rs Rsh
  exact ⟨K, h1, h2, h3⟩

/-- C2: for every input the iteration terminates, stopping at the first index
whose absolute Newton step is below `1e-10` or at the fixed cap of 100
iterations, whichever comes first: the result is iterate `K` for some
`1 ≤ K ≤ 100`, no step strictly before the stopping one was below the
tolerance, and if the cap was not reached the stopping step was. -/
theorem iteration_stops_at_tolerance_or_cap (V Jsc J0 n Rs Rsh : ℝ) :
    ∃ K, 1 ≤ K ∧ K ≤ 100 ∧
      solar_cell_current V Jsc J0 n Rs Rsh = newtonIter V Jsc J0 n Rs Rsh K ∧
      (∀ j, j + 1 < K →
        ¬ |newtonIter V Jsc J0 n Rs Rsh (j + 1) - newtonIter V Jsc J0 n Rs Rsh j| < 1e-10) ∧
      (K < 100 →
        |newtonIter V Jsc J0 n Rs Rsh K - newtonIter V Jsc J0 n Rs Rsh (K - 1)| < 1e-10) :=
  solar_cell_current_stops V Jsc J0 n Rs Rsh

/-- C3: when no Newton step before the cap satisfies the tolerance criterion,
the solver returns the last computed iterate (the 100th), as a plain number,
with no convergence flag and no error. -/
theorem nonconvergence_returns_last_iterate (V Jsc J0 n Rs Rsh : ℝ)
    (h : ∀ j, j < 99 →
      ¬ |newtonIter V Jsc J0 n Rs Rsh (j + 1) - newtonIter V Jsc J0 n Rs Rsh j| < 1e-10) :
    solar_cell_current V Jsc J0 n Rs Rsh = newtonIter V Jsc J0 n Rs Rsh 100 := by
  obtain ⟨K, h1, h2, h3, -, h5⟩ := solar_cell_current_stops V Jsc J0 n Rs Rsh
  rcases Nat.eq_or_lt_of_le h2 with hK | hK
  · rw [h3, hK]
  · have hK1 : K - 1 + 1 = K := by omega
    have := h (K - 1) (by omega)
    rw [hK1] at this
    exact absurd (h5 hK) this

/-- Crude lower bound on the exponential: at arguments at least 32032 it is at
least 1e40. -/
lemma exp_ge_big {x : ℝ} (hx : 32032 ≤ x) : (1e40 : ℝ) ≤ Real.exp x := by
  have h1 : Real.exp 32032 ≤ Real.exp x := Real.exp_le_exp.mpr hx
  have h2 : Real.exp ((16 : ℕ) * 2002) = Real.exp 2002 ^ 16 := Real.exp_nat_mul 2002 16
  have h3 : ((16 : ℕ) : ℝ) * 2002 = 32032 := by norm_num
  rw [h3] at h2
  have h4 : (2003 : ℝ) ≤ Real.exp 2002 := by
    have := Real.add_one_le_exp (2002 : ℝ)
    linarith
  have h5 : (2003 : ℝ) ^ 16 ≤ Real.exp 2002 ^ 16 := pow_le_pow_left (by norm_num) h4 16
  have h6 : (1e40 : ℝ) ≤ (2003 : ℝ) ^ 16 := by norm_num
  calc (1e40 : ℝ) ≤ (2003 : ℝ) ^ 16 := h6
    _ ≤ Real.exp 2002 ^ 16 := h5
    _ = Real.exp 32032 := h2.symm
    _ ≤ Real.exp x := h1

/-- At V = 1000 with the reference parameters, a Newton step taken from any
iterate in the window `[Jsc - 6300, Jsc]` decreases the iterate by between 7
and 63: the exponential term dominates the residual and the derivative alike,
so the quotient `f/df` stays near `n*Vt/Rs ~ 31`. -/
lemma newton_step_window (J : ℝ) (h1 : Jsc - 6300 ≤ J) (h2 : J ≤ Jsc) :
    7 ≤ J - J_new 1000 Jsc J0 n Rs Rsh J ∧ J - J_new 1000 Jsc J0 n Rs Rsh J ≤ 63 := by
  simp only [Jsc] at h1 h2
  simp only [J_new, f, df, Jsc, J0, n, Rs, Rsh, Vt]
  set E := Real.exp ((1000 + J * 0.001) / (1.2 * 0.02585)) with hE
  have hElb : (1e40 : ℝ) ≤ E := by
    rw [hE]
    apply exp_ge_big
    rw [le_div_iff (by norm_num : (0 : ℝ) < 1.2 * 0.02585)]
    linarith
  have hEpos : (0 : ℝ) < E := by rw [hE]; exact Real.exp_pos _
  have hdfpos : (0 : ℝ) <
      1 + 1e-12 * 0.001 / (1.2 * 0.02585) * E + 0.001 / 10000 := by
    nlinarith
  constructor
  · have hr : J -
        (J - (J - 30.52638788 + 1e-12 * (E - 1) + (1000 + J * 0.001) / 10000) /
          (1 + 1e-12 * 0.001 / (1.2 * 0.02585) * E + 0.001 / 10000)) =
        (J - 30.52638788 + 1e-12 * (E - 1) + (1000 + J * 0.001) / 10000) /
          (1 + 1e-12 * 0.001 / (1.2 * 0.02585) * E + 0.001 / 10000) := by ring
    rw [hr, le_div_iff hdfpos]
    linarith
  · have hr : J -
        (J - (J - 30.52638788 + 1e-12 * (E - 1) + (1000 + J * 0.001) / 10000) /
          (1 + 1e-12 * 0.001 / (1.2 * 0.02585) * E + 0.001 / 10000)) =
        (J - 30.52638788 + 1e-12 * (E - 1) + (1000 + J * 0.001) / 10000) /
          (1 + 1e-12 * 0.001 / (1.2 * 0.02585) * E + 0.001 / 10000) := by ring
    rw [hr, div_le_iff hdfpos]
    linarith

/-- At V = 1000 with the reference parameters every iterate up to the cap
stays in the window `[Jsc - 63 k, Jsc]`. -/
lemma iter_window_1000 :
    ∀ k : ℕ, k ≤ 100 →
      Jsc - 63 * (k : ℝ) ≤ newtonIter 1000 Jsc J0 n Rs Rsh k ∧
      newtonIter 1000 Jsc J0 n Rs Rsh k ≤ Jsc := by
  intro k
  induction k with
  | zero =>
    intro _
    rw [newtonIter_zero]
    constructor
    · push_cast
      linarith
    · exact le_rfl
  | succ k ih =>
    intro hk
    obtain ⟨ha, hb⟩ := ih (by omega)
    have hc : (k : ℝ) ≤ 99 := by exact_mod_cast (by omega : k ≤ 99)
    have hlow : Jsc - 6300 ≤ newtonIter 1000 Jsc J0 n Rs Rsh k := by linarith
    obtain ⟨hs1, hs2⟩ := newton_step_window _ hlow hb
    rw [newtonIter_succ]
    constructor
    · push_cast
      linarith
    · linarith

/-- At V = 1000 with the reference parameters no Newton step before the cap
meets the 1e-10 tolerance: every step has size at least 7. -/
lemma no_small_step_1000 :
    ∀ j, j < 99 →
      ¬ |newtonIter 1000 Jsc J0 n Rs Rsh (j + 1) - newtonIter 1000 Jsc J0 n Rs Rsh j| <
        1e-10 := by
  intro j hj habs
  obtain ⟨ha, hb⟩ := iter_window_1000 j (by omega)
  have hc : (j : ℝ) ≤ 99 := by exact_mod_cast (by omega : j ≤ 99)
  have hlow : Jsc - 6300 ≤ newtonIter 1000 Jsc J0 n Rs Rsh j := by linarith
  obtain ⟨hs1, hs2⟩ := newton_step_window _ hlow hb
  rw [newtonIter_succ, abs_lt] at habs
  linarith [habs.1]

/-- Witness for C3: at V = 1000 with the reference parameters the Newton
iteration never meets the tolerance before the cap, and the solver silently
returns the 100th iterate. -/
theorem nonconvergence_returns_last_iterate_witness :
    solar_cell_current 1000 Jsc J0 n Rs Rsh = newtonIter 1000 Jsc J0 n Rs Rsh 100 :=
  nonconvergence_returns_last_iterate 1000 Jsc J0 n Rs Rsh no_small_step_1000

/-- With series resistance zero the derivative term reduces to 1. -/
lemma rs_zero_df (V Jsc J0 n Rsh J : ℝ) : df V Jsc J0 n 0 Rsh J = 1 := by
  simp [df]

/-- With series resistance zero the residual does not depend on the iterate
through the exponential argument. -/
lemma rs_zero_f (V Jsc J0 n Rsh J : ℝ) :
    f V Jsc J0 n 0 Rsh J = J - Jsc + J0 * (Real.exp (V / (n * Vt)) - 1) + V / Rsh := by
  simp [f]

lemma rs_zero_J_new (V Jsc J0 n Rsh J : ℝ) :
    J_new V Jsc J0 n 0 Rsh J =
      J - (J - Jsc + J0 * (Real.exp (V / (n * Vt)) - 1) + V / Rsh) := by
  rw [J_new, rs_zero_f, rs_zero_df, div_one]

/-- With series resistance zero and the reference defaults, a voltage of at
least 1000 drives the exponential argument far past the float64 overflow
threshold (about 709.78), the loop stops after exactly two iterations, and the
solver returns the closed-form value in which the unguarded exponential
appears — an astronomically negative number handed back silently. -/
lemma rs_zero_large_V_eval (V : ℝ) (hV : 1000 ≤ V) :
    solar_cell_current V Jsc J0 n 0 Rsh =
      Jsc - (J0 * (Real.exp (V / (n * Vt)) - 1) + V / Rsh) ∧
    709.78 < V / (n * Vt) ∧
    solar_cell_current V Jsc J0 n 0 Rsh < -(10 : ℝ) ^ 27 := by
  have hnVt : (0 : ℝ) < n * Vt := by norm_num [n, Vt]
  have harg : (32032 : ℝ) ≤ V / (n * Vt) := by
    rw [le_div_iff hnVt]
    norm_num [n, Vt]
    linarith
  have hE1 : (1 : ℝ) ≤ Real.exp (V / (n * Vt)) :=
    Real.one_le_exp (by positivity)
  have hE40 : (1e40 : ℝ) ≤ Real.exp (V / (n * Vt)) := exp_ge_big harg
  have hJ0 : (0 : ℝ) ≤ J0 := by norm_num [J0]
  have hiter1 : newtonIter V Jsc J0 n 0 Rsh 1 =
      Jsc - (J0 * (Real.exp (V / (n * Vt)) - 1) + V / Rsh) := by
    rw [show (1 : ℕ) = 0 + 1 from rfl, newtonIter_succ, newtonIter_zero, rs_zero_J_new]
    ring
  have hiter2 : newtonIter V Jsc J0 n 0 Rsh 2 = newtonIter V Jsc J0 n 0 Rsh 1 := by
    rw [show (2 : ℕ) = 1 + 1 from rfl, newtonIter_succ, rs_zero_J_new, hiter1]
    ring
  have hVRsh : (0.1 : ℝ) ≤ V / Rsh := by
    rw [le_div_iff (by norm_num [Rsh] : (0 : ℝ) < Rsh)]
    norm_num [Rsh]
    linarith
  have hbig0 : ¬ |newtonIter V Jsc J0 n 0 Rsh (0 + 1) - newtonIter V Jsc J0 n 0 Rsh 0| <
      1e-10 := by
    rw [show (0 : ℕ) + 1 = 1 from rfl, hiter1, newtonIter_zero, abs_lt]
    intro habs
    have hterm : (0 : ℝ) ≤ J0 * (Real.exp (V / (n * Vt)) - 1) := by
      apply mul_nonneg hJ0
      linarith
    have := habs.1
    linarith
  have hsmall1 : |newtonIter V Jsc J0 n 0 Rsh (1 + 1) - newtonIter V Jsc J0 n 0 Rsh 1| <
      1e-10 := by
    rw [show (1 : ℕ) + 1 = 2 from rfl, hiter2, sub_self, abs_zero]
    norm_num
  have hval : solar_cell_current V Jsc J0 n 0 Rsh =
      Jsc - (J0 * (Real.exp (V / (n * Vt)) - 1) + V / Rsh) := by
    obtain ⟨K, hK1, hK2, hK3, hK4, hK5⟩ := solar_cell_current_stops V Jsc J0 n 0 Rsh
    have hKcases : K = 1 ∨ K = 2 ∨ 3 ≤ K := by omega
    rcases hKcases with hK | hK | hK
    · exfalso
      have := hK5 (by omega)
      rw [hK] at this
      exact hbig0 (by simpa using this)
    · rw [hK3, hK, hiter2, hiter1]
    · exact absurd hsmall1 (hK4 1 (by omega))
  refine ⟨hval, ?_, ?_⟩
  · calc (709.78 : ℝ) < 32032 := by norm_num
      _ ≤ V / (n * Vt) := harg
  · rw [hval]
    have hJsc : Jsc = 30.52638788 := rfl
    have hJ0v : J0 = 1e-12 := rfl
    rw [hJsc, hJ0v]
    nlinarith [hE40, hVRsh]

/-- C4 (amended): the solver performs no overflow detection or clamping.  For
every voltage of at least 1000 (exponential argument far beyond the float64
overflow threshold of about 709.78) it silently returns the unguarded
closed-form value containing the exponential — a wildly nonphysical number —
and raises no error of any kind. -/
theorem overflow_silently_propagated (V : ℝ) (hV : 1000 ≤ V) :
    709.78 < V / (n * Vt) ∧
    solar_cell_current V Jsc J0 n 0 Rsh =
      Jsc - (J0 * (Real.exp (V / (n * Vt)) - 1) + V / Rsh) ∧
    solar_cell_current V Jsc J0 n 0 Rsh < -(10 : ℝ) ^ 27 := by
  obtain ⟨h1, h2, h3⟩ := rs_zero_large_V_eval V hV
  exact ⟨h2, h1, h3⟩

/-- Witness for the amended C4, at the concrete voltage 2000. -/
theorem overflow_silently_propagated_witness :
    (1000 : ℝ) ≤ 2000 ∧
    (709.78 < 2000 / (n * Vt) ∧
      solar_cell_current 2000 Jsc J0 n 0 Rsh =
        Jsc - (J0 * (Real.exp (2000 / (n * Vt)) - 1) + 2000 / Rsh) ∧
      solar_cell_current 2000 Jsc J0 n 0 Rsh < -(10 : ℝ) ^ 27) :=
  ⟨by norm_num, overflow_silently_propagated 2000 (by norm_num)⟩

/-- Counterexample to C4 as stated: at V = 1000, a voltage far outside the
intended operating range, the solver neither detects nor clamps the
overflowing exponential and fails with no error: it returns the plain value in
which the exponential of an argument beyond the float64 overflow threshold
appears, a number below -(10^27). -/
theorem overflow_not_detected_counterexample :
    709.78 < 1000 / (n * Vt) ∧
    solar_cell_current 1000 Jsc J0 n 0 Rsh =
      Jsc - (J0 * (Real.exp (1000 / (n * Vt)) - 1) + 1000 / Rsh) ∧
    solar_cell_current 1000 Jsc J0 n 0 Rsh < -(10 : ℝ) ^ 27 := by
  obtain ⟨h1, h2, h3⟩ := rs_zero_large_V_eval 1000 le_rfl
  exact ⟨h2, h1, h3⟩

/-- C5 (amended): the solver performs no parameter validation.  Supplied with
non-positive `n` and non-positive `Rsh` it does not reject them before the
iteration: the call unconditionally runs the Newton loop and returns one of
its iterates.  (`Vt` cannot be supplied at all — it is a fixed module
constant.) -/
theorem invalid_parameters_run_anyway (V Jsc J0 n Rs Rsh : ℝ)
    (hn : n ≤ 0) (hRsh : Rsh ≤ 0) :
    solar_cell_current V Jsc J0 n Rs Rsh = newtonGo V Jsc J0 n Rs Rsh 100 Jsc ∧
    ∃ K, 1 ≤ K ∧ K ≤ 100 ∧
      solar_cell_current V Jsc J0 n Rs Rsh = newtonIter V Jsc J0 n Rs Rsh K := by
  refine ⟨rfl, ?_⟩
  obtain ⟨K, h1, h2, h3, -, -⟩ := solar_cell_current_stops V Jsc J0 n Rs Rsh
  exact ⟨K, h1, h2, h3⟩

/-- Witness for the amended C5 at `n = -1`, `Rsh = -1`. -/
theorem invalid_parameters_run_anyway_witness :
    (-1 : ℝ) ≤ 0 ∧
    (solar_cell_current 0 30.52638788 1e-12 (-1) 0 (-1) =
        newtonGo 0 30.52638788 1e-12 (-1) 0 (-1) 100 30.52638788 ∧
      ∃ K, 1 ≤ K ∧ K ≤ 100 ∧
        solar_cell_current 0 30.52638788 1e-12 (-1) 0 (-1) =
          newtonIter 0 30.52638788 1e-12 (-1) 0 (-1) K) :=
  ⟨by norm_num,
    invalid_parameters_run_anyway 0 30.52638788 1e-12 (-1) 0 (-1)
      (by norm_num) (by norm_num)⟩

/-- Counterexample to C5 as stated: with ideality factor -1 and shunt
resistance -1 — both invalid, non-positive parameters — the solver does not
fail fast: the Newton iteration runs and the call returns its converged value
30.52638788. -/
theorem invalid_parameters_accepted_counterexample :
    (-1 : ℝ) ≤ 0 ∧
    solar_cell_current 0 30.52638788 1e-12 (-1) 0 (-1) = 30.52638788 := by
  refine ⟨by norm_num, ?_⟩
  have hiter1 : newtonIter 0 30.52638788 1e-12 (-1) 0 (-1) 1 = 30.52638788 := by
    rw [show (1 : ℕ) = 0 + 1 from rfl, newtonIter_succ, newtonIter_zero, rs_zero_J_new]
    norm_num [Real.exp_zero]
  have hsmall0 :
      |newtonIter 0 30.52638788 1e-12 (-1) 0 (-1) (0 + 1) -
        newtonIter 0 30.52638788 1e-12 (-1) 0 (-1) 0| < 1e-10 := by
    rw [show (0 : ℕ) + 1 = 1 from rfl, hiter1, newtonIter_zero, sub_self, abs_zero]
    norm_num
  obtain ⟨K, hK1, hK2, hK3, hK4, hK5⟩ :=
    solar_cell_current_stops 0 30.52638788 1e-12 (-1) 0 (-1)
  have hK : K = 1 := by
    by_contra hne
    exact hK4 0 (by omega) hsmall0
  rw [hK3, hK, hiter1]

/-- C7: the solver is deterministic and side-effect free.  It is embedded as a
pure function — a call touches no state outside its own local iteration — and
two calls with identical inputs yield identical outputs. -/
theorem solver_deterministic (V1 Jsc1 J01 n1 Rs1 Rsh1 V2 Jsc2 J02 n2 Rs2 Rsh2 : ℝ)
    (hV : V1 = V2) (hJsc : Jsc1 = Jsc2) (hJ0 : J01 = J02) (hn : n1 = n2)
    (hRs : Rs1 = Rs2) (hRsh : Rsh1 = Rsh2) :
    solar_cell_current V1 Jsc1 J01 n1 Rs1 Rsh1 =
      solar_cell_current V2 Jsc2 J02 n2 Rs2 Rsh2 := by
  rw [hV, hJsc, hJ0, hn, hRs, hRsh]

/-- Witness for C7 at a concrete duplicated input. -/
theorem solver_deterministic_witness :
    (0.5 : ℝ) = 0.5 ∧
    solar_cell_current 0.5 Jsc J0 n Rs Rsh = solar_cell_current 0.5 Jsc J0 n Rs Rsh :=
  ⟨rfl, solver_deterministic 0.5 Jsc J0 n Rs Rsh 0.5 Jsc J0 n Rs Rsh
    rfl rfl rfl rfl rfl rfl⟩

/-- C9: whenever `J0 ≥ 0`, `Rs ≥ 0`, `Rsh > 0` and `n > 0` (the thermal
voltage is the fixed positive constant 0.02585), the Newton denominator `df`
is at least 1 at every iterate, so the division `f/df` in the update step is
never a division by zero. -/
theorem newton_denominator_ge_one (V Jsc J0 n Rs Rsh J : ℝ)
    (hJ0 : 0 ≤ J0) (hRs : 0 ≤ Rs) (hRsh : 0 < Rsh) (hn : 0 < n) :
    1 ≤ df V Jsc J0 n Rs Rsh J ∧ df V Jsc J0 n Rs Rsh J ≠ 0 := by
  have hVt : (0 : ℝ) < Vt := by norm_num [Vt]
  have hnVt : (0 : ℝ) < n * Vt := mul_pos hn hVt
  have hexp : (0 : ℝ) < Real.exp ((V + J * Rs) / (n * Vt)) := Real.exp_pos _
  have h1 : (0 : ℝ) ≤ J0 * Rs / (n * Vt) * Real.exp ((V + J * Rs) / (n * Vt)) :=
    mul_nonneg (div_nonneg (mul_nonneg hJ0 hRs) hnVt.le) hexp.le
  have h2 : (0 : ℝ) ≤ Rs / Rsh := div_nonneg hRs hRsh.le
  have hge : 1 ≤ df V Jsc J0 n Rs Rsh J := by
    simp only [df]
    linarith
  exact ⟨hge, by linarith⟩

/-- Witness for C9 at the reference parameters and the initial iterate. -/
theorem newton_denominator_ge_one_witness :
    (0 : ℝ) ≤ J0 ∧ (0 : ℝ) ≤ Rs ∧ (0 : ℝ) < Rsh ∧ (0 : ℝ) < n ∧
    (1 ≤ df 0.5 Jsc J0 n Rs Rsh Jsc ∧ df 0.5 Jsc J0 n Rs Rsh Jsc ≠ 0) :=
  ⟨by norm_num [J0], by norm_num [Rs], by norm_num [Rsh], by norm_num [n],
    newton_denominator_ge_one 0.5 Jsc J0 n Rs Rsh Jsc
      (by norm_num [J0]) (by norm_num [Rs]) (by norm_num [Rsh]) (by norm_num [n])⟩

/-- Sample `i` of `np.linspace(-0.1, Voc + 0.05, 500)`:
`-0.1 + i * ((Voc + 0.05 - (-0.1)) / 499)`. -/
noncomputable def V_at (i : ℕ) : ℝ := -0.1 + (i : ℝ) * ((Voc + 0.05 - (-0.1)) / 499)

/-- `V_range = np.linspace(-0.1, Voc + 0.05, 500)`. -/
noncomputable def V_range : List ℝ := (List.range 500).map fun i => V_at i

/-- The sweep's call `solar_cell_current(V)`, with the module defaults for the
keyword arguments. -/
noncomputable def solar_cell_current_default (V : ℝ) : ℝ :=
  solar_cell_current V Jsc J0 n Rs Rsh

/-- `J_range = np.array([solar_cell_current(V) for V in V_range])`. -/
noncomputable def J_range : List ℝ := V_range.map fun V => solar_cell_current_default V

/-- `P_range = V_range * J_range`: elementwise power density. -/
noncomputable def P_range : List ℝ := List.zipWith (fun V J => V * J) V_range J_range

/-- C8: the sweep driver builds the voltage grid as exactly 500 evenly spaced
samples from -0.1 to Voc + 0.05 (first sample -0.1, last Voc + 0.05, constant
spacing, strictly ascending), invokes the solver once per sample in that
order with the module default parameters, and derives each point's power
density as V * J. -/
theorem sweep_grid_solver_power :
    V_range.length = 500 ∧ J_range.length = 500 ∧ P_range.length = 500 ∧
    (∀ i, i < 500 → V_range.get? i = some (V_at i)) ∧
    V_at 0 = -0.1 ∧ V_at 499 = Voc + 0.05 ∧
    (∀ i, V_at (i + 1) - V_at i = (Voc + 0.05 - (-0.1)) / 499) ∧
    (∀ i j, i < j → V_at i < V_at j) ∧
    (∀ i, i < 500 →
      J_range.get? i = some (solar_cell_current (V_at i) Jsc J0 n Rs Rsh)) ∧
    (∀ i, i < 500 →
      P_range.get? i = some (V_at i * solar_cell_current (V_at i) Jsc J0 n Rs Rsh)) := by
  have hV : ∀ i, i < 500 → V_range.get? i = some (V_at i) := by
    intro i hi
    rw [V_range, List.get?_map, List.get?_range hi]
    rfl
  have hJ : ∀ i, i < 500 →
      J_range.get? i = some (solar_cell_current (V_at i) Jsc J0 n Rs Rsh) := by
    intro i hi
    rw [J_range, List.get?_map, hV i hi]
    rfl
  refine ⟨?_, ?_, ?_, hV, ?_, ?_, ?_, ?_, hJ, ?_⟩
  · simp [V_range]
  · simp [J_range, V_range]
  · simp [P_range, J_range, V_range]
  · norm_num [V_at]
  · norm_num [V_at, Voc]
  · intro i
    simp only [V_at]
    push_cast
    ring
  · intro i j hij
    simp only [V_at]
    have hs : (0 : ℝ) < (Voc + 0.05 - (-0.1)) / 499 := by norm_num [Voc]
    have hij' : (i : ℝ) < (j : ℝ) := by exact_mod_cast hij
    nlinarith
  · intro i hi
    rw [P_range, List.get?_zipWith', hV i hi, hJ i hi]
    rfl

/-- The residual with the thermal voltage generalized to an explicit
parameter `vt`; at `vt = Vt` it is the source's `f`.  Used to state that the
source fixes the thermal voltage at the module constant. -/
noncomputable def f_vt (vt V Jsc J0 n Rs Rsh J_guess : ℝ) : ℝ :=
  J_guess - Jsc + J0 * (Real.exp ((V + J_guess * Rs) / (n * vt)) - 1) +
    (V + J_guess * Rs) / Rsh

/-- The derivative with the thermal voltage generalized. -/
noncomputable def df_vt (vt V Jsc J0 n Rs Rsh J_guess : ℝ) : ℝ :=
  1 + (J0 * Rs / (n * vt)) * Real.exp ((V + J_guess * Rs) / (n * vt)) + Rs / Rsh

/-- The Newton update with the thermal voltage generalized. -/
noncomputable def J_new_vt (vt V Jsc J0 n Rs Rsh J_guess : ℝ) : ℝ :=
  J_guess - f_vt vt V Jsc J0 n Rs Rsh J_guess / df_vt vt V Jsc J0 n Rs Rsh J_guess

/-- The loop with the thermal voltage generalized. -/
noncomputable def newtonGo_vt (vt V Jsc J0 n Rs Rsh : ℝ) : ℕ → ℝ → ℝ
  | 0, J_guess => J_guess
  | fuel + 1, J_guess =>
    if fuel = 0 then J_new_vt vt V Jsc J0 n Rs Rsh J_guess
    else if |J_new_vt vt V Jsc J0 n Rs Rsh J_guess - J_guess| < 1e-10 then
      J_new_vt vt V Jsc J0 n Rs Rsh J_guess
    else newtonGo_vt vt V Jsc J0 n Rs Rsh fuel (J_new_vt vt V Jsc J0 n Rs Rsh J_guess)

/-- The solver with the thermal voltage generalized. -/
noncomputable def solar_cell_current_vt (vt V Jsc J0 n Rs Rsh : ℝ) : ℝ :=
  newtonGo_vt vt V Jsc J0 n Rs Rsh 100 Jsc

lemma newtonGo_vt_succ (vt V Jsc J0 n Rs Rsh : ℝ) (fuel : ℕ) (Jg : ℝ) :
    newtonGo_vt vt V Jsc J0 n Rs Rsh (fuel + 1) Jg =
      if fuel = 0 then J_new_vt vt V Jsc J0 n Rs Rsh Jg
      else if |J_new_vt vt V Jsc J0 n Rs Rsh Jg - Jg| < 1e-10 then
        J_new_vt vt V Jsc J0 n Rs Rsh Jg
      else newtonGo_vt vt V Jsc J0 n Rs Rsh fuel (J_new_vt vt V Jsc J0 n Rs Rsh Jg) := rfl

lemma J_new_vt_fixed (V Jsc J0 n Rs Rsh J : ℝ) :
    J_new_vt Vt V Jsc J0 n Rs Rsh J = J_new V Jsc J0 n Rs Rsh J := rfl

/-- At `vt = Vt` the generalized loop is the source's loop. -/
lemma newtonGo_vt_fixed (V Jsc J0 n Rs Rsh : ℝ) :
    ∀ fuel Jg,
      newtonGo_vt Vt V Jsc J0 n Rs Rsh fuel Jg = newtonGo V Jsc J0 n Rs Rsh fuel Jg := by
  intro fuel
  induction fuel with
  | zero => intro Jg; rfl
  | succ fl ih =>
    intro Jg
    rw [newtonGo_vt_succ, newtonGo_succ, J_new_vt_fixed, ih]

/-- C10: the thermal voltage is not a parameter of `solar_cell_current`:
every call evaluates the vt-generalized solver at the fixed module constant
Vt = 0.02585, which callers cannot vary per call, while `Jsc`, `J0`, `n`,
`Rs` and `Rsh` are the overridable arguments whose module-constant defaults
the sweep's call `solar_cell_current(V)` uses. -/
theorem thermal_voltage_fixed :
    Vt = 0.02585 ∧
    (∀ V a b c d e,
      solar_cell_current V a b c d e = solar_cell_current_vt Vt V a b c d e) ∧
    Jsc = 30.52638788 ∧ J0 = 1e-12 ∧ n = 1.2 ∧ Rs = 0.001 ∧ Rsh = 10000 ∧
    (∀ V, solar_cell_current_default V = solar_cell_current V Jsc J0 n Rs Rsh) := by
  refine ⟨rfl, fun V a b c d e => ?_, rfl, rfl, rfl, rfl, rfl, fun V => rfl⟩
  exact (newtonGo_vt_fixed V a b c d e 100 a).symm

end SolarCell
